import Mathlib

/-!
Verification of the FNET transport facade (fnet/src/vespa/fnet/transport.cpp).

The facade shards `Listen`/`Connect` calls over a pool of worker threads by
hashing the endpoint spec (XXH64, twice, with a per-call salt), broadcasts
lifecycle and tuning operations over the pool, and routes operations on
existing I/O components via their owner back-reference.  Below, the hash,
the selector and every facade operation the claims touch are embedded as
executable Lean definitions; machine integers are modelled as `Nat` with
explicit reduction modulo 2^64 (or 2^32) where the C++ uses fixed-width
arithmetic.
-/

/-! ## XXH64 (the 64-bit xxHash used by the selector) -/

def M64 : Nat := 18446744073709551616

def M32 : Nat := 4294967296

def mask64 (x : Nat) : Nat := x % M64

def PRIME64_1 : Nat := 11400714785074694791

def PRIME64_2 : Nat := 14029467366897019727

def PRIME64_3 : Nat := 1609587929392839161

def PRIME64_4 : Nat := 9650029242287828579

def PRIME64_5 : Nat := 2870177450012600261

/-- Rotate a 64-bit value left by `r` (0 < r < 64). -/
def rotl64 (x r : Nat) : Nat :=
  mask64 ((mask64 x) <<< r ||| (mask64 x) >>> (64 - r))

/-- Little-endian value of a byte list. -/
def readLE : List Nat → Nat
  | [] => 0
  | b :: rest => b % 256 + 256 * readLE rest

/-- Read a 64-bit little-endian value from the first 8 bytes. -/
def read64le (l : List Nat) : Nat := readLE (l.take 8)

/-- Read a 32-bit little-endian value from the first 4 bytes. -/
def read32le (l : List Nat) : Nat := readLE (l.take 4)

/-- XXH64 accumulator round. -/
def xxh64_round (acc input : Nat) : Nat :=
  mask64 (rotl64 (acc + input * PRIME64_2) 31 * PRIME64_1)

/-- XXH64 merge of one lane accumulator into the running hash. -/
def xxh64_mergeRound (acc val : Nat) : Nat :=
  mask64 ((acc ^^^ xxh64_round 0 val) * PRIME64_1 + PRIME64_4)

/-- Consume 32-byte stripes, updating the four lane accumulators;
returns the accumulators and the remaining input.  The structural `fuel`
argument bounds the iteration count; every call supplies
`fuel = input.length`, which each iteration (consuming 32 bytes) can never
exhaust. -/
def xxh64_stripesF : Nat → List Nat → Nat → Nat → Nat → Nat →
    Nat × Nat × Nat × Nat × List Nat
  | 0, input, v1, v2, v3, v4 => (v1, v2, v3, v4, input)
  | fuel + 1, input, v1, v2, v3, v4 =>
    if 32 ≤ input.length then
      xxh64_stripesF fuel (input.drop 32)
        (xxh64_round v1 (read64le input))
        (xxh64_round v2 (read64le (input.drop 8)))
        (xxh64_round v3 (read64le (input.drop 16)))
        (xxh64_round v4 (read64le (input.drop 24)))
    else
      (v1, v2, v3, v4, input)

def xxh64_stripes (input : List Nat) (v1 v2 v3 v4 : Nat) :
    Nat × Nat × Nat × Nat × List Nat :=
  xxh64_stripesF input.length input v1 v2 v3 v4

/-- XXH64 finalization over the tail bytes (fewer than 32 remain).  The
structural `fuel` argument bounds the iteration count; every call supplies
`fuel = input.length`, which each iteration (consuming at least one byte)
can never exhaust. -/
def xxh64_finalizeF : Nat → Nat → List Nat → Nat
  | 0, h64, _ => h64
  | fuel + 1, h64, input =>
    if 8 ≤ input.length then
      xxh64_finalizeF fuel
        (mask64 (rotl64 (h64 ^^^ xxh64_round 0 (read64le input)) 27 * PRIME64_1 + PRIME64_4))
        (input.drop 8)
    else if 4 ≤ input.length then
      xxh64_finalizeF fuel
        (mask64 (rotl64 (h64 ^^^ mask64 (read32le input * PRIME64_1)) 23 * PRIME64_2 + PRIME64_3))
        (input.drop 4)
    else
      match input with
      | [] => h64
      | b :: rest =>
          xxh64_finalizeF fuel
            (mask64 (rotl64 (h64 ^^^ mask64 ((b % 256) * PRIME64_5)) 11 * PRIME64_1)) rest

def xxh64_finalize (h64 : Nat) (input : List Nat) : Nat :=
  xxh64_finalizeF input.length h64 input

/-- XXH64 avalanche mixing of the final value. -/
def xxh64_avalanche (h : Nat) : Nat :=
  let h1 := h ^^^ (h >>> 33)
  let h2 := mask64 (h1 * PRIME64_2)
  let h3 := h2 ^^^ (h2 >>> 29)
  let h4 := mask64 (h3 * PRIME64_3)
  h4 ^^^ (h4 >>> 32)

/-- The XXH64 hash of a byte list with the given seed. -/
def XXH64 (input : List Nat) (seed : Nat) : Nat :=
  let p :=
    if 32 ≤ input.length then
      let v1 := mask64 (seed + PRIME64_1 + PRIME64_2)
      let v2 := mask64 (seed + PRIME64_2)
      let v3 := mask64 seed
      let v4 := mask64 (mask64 seed + M64 - PRIME64_1)
      let s := xxh64_stripes input v1 v2 v3 v4
      let w1 := s.1
      let w2 := s.2.1
      let w3 := s.2.2.1
      let w4 := s.2.2.2.1
      let rest := s.2.2.2.2
      let h0 := mask64 (rotl64 w1 1 + rotl64 w2 7 + rotl64 w3 12 + rotl64 w4 18)
      let h1 := xxh64_mergeRound h0 w1
      let h2 := xxh64_mergeRound h1 w2
      let h3 := xxh64_mergeRound h2 w3
      let h4 := xxh64_mergeRound h3 w4
      (h4, rest)
    else
      (mask64 (seed + PRIME64_5), input)
  xxh64_avalanche (xxh64_finalize (mask64 (p.1 + input.length)) p.2)

/-! ## HashState and worker selection (FNET_Transport::select_thread)

The C++ selector builds a stack-local `HashState { const void *self;
clock::time_point now; uint64_t key_hash; }` — `self` is the address of the
local object (a per-call value) and `now` a high-resolution timestamp — and
hashes its 24 raw bytes.  The two environment-supplied salts (`self`, `now`)
are explicit parameters of the embedding; the struct bytes are the three
64-bit fields in little-endian order (x86-64 layout, no padding). -/

/-- The 8 little-endian bytes of a 64-bit value. -/
def le64 (x : Nat) : List Nat := (List.range 8).map (fun i => (x >>> (8 * i)) % 256)

structure HashState where
  self : Nat
  now : Nat
  key_hash : Nat

/-- The `HashState` constructor: stores the per-call identity and timestamp
salts and the first-stage hash `XXH64(key, key_len, 0)`. -/
def mkHashState (key : List Nat) (selfAddr now : Nat) : HashState :=
  { self := selfAddr, now := now, key_hash := XXH64 key 0 }

/-- The raw bytes of a `HashState` (`sizeof(HashState)` = 24, three
little-endian 64-bit fields). -/
def HashState.bytes (h : HashState) : List Nat :=
  le64 h.self ++ le64 h.now ++ le64 h.key_hash

/-- `FNET_Transport::select_thread`, at the level of the selected index:
hash the key, hash the salted `HashState` bytes, reduce modulo the number
of worker threads. -/
def select_idx (numThreads : Nat) (key : List Nat) (selfAddr now : Nat) : Nat :=
  let hash_state := mkHashState key selfAddr now
  let hash_value := XXH64 hash_state.bytes 0
  hash_value % numThreads

/-- The selection algorithm as the spec's §4.1 words it: a first 64-bit hash
of the key, then a second 64-bit hash over (a) a per-call identity value,
(b) a call-time timestamp, (c) the first hash, taken modulo N.  Stated
separately from `select_idx` (which is translated from the C++) so that the
two can be compared. -/
def specSelect (numThreads : Nat) (key : List Nat) (ident timestamp : Nat) : Nat :=
  let first_hash := XXH64 key 0
  let second_hash := XXH64 (le64 ident ++ le64 timestamp ++ le64 first_hash) 0
  second_hash % numThreads

/-! ## The worker-thread model

`FNET_TransportThread` lives outside the translated fragment; the spec
treats it as an external collaborator with a named contract (§2, §6).  Each
worker is modelled as a record of uninterpreted behaviours: what `Listen`
and `Connect` answer (with `none` for a null pointer result), the current
`GetNumIOComponents` value (a `uint32_t`), the verdict of `Start`, and the
values behind the single-thread-mode hooks.  `startCount` counts `Start`
invocations so that "the facade attempts every worker" is observable. -/

structure FNET_TransportThread where
  listen : List Nat → Nat → Nat → Option Nat
  connect : List Nat → Nat → Nat → Nat → Nat → Nat → Option Nat
  numIOComponents : Nat
  start_ok : Nat → Bool
  startCount : Nat
  timeSampler : Nat
  initEventLoop_ok : Bool
  eventLoopIteration_ok : Bool

/-- Worker-level `GetNumIOComponents` returns a `uint32_t`. -/
def FNET_TransportThread.GetNumIOComponents (th : FNET_TransportThread) : Nat :=
  th.numIOComponents % M32

/-- Worker-level `Start(pool)`: reports success and records the invocation. -/
def FNET_TransportThread.Start (th : FNET_TransportThread) (pool : Nat) :
    Bool × FNET_TransportThread :=
  (th.start_ok pool, { th with startCount := th.startCount + 1 })

/-! ## The transport facade -/

/-- `FNET_Transport`: an async-resolver handle (opaque) and the worker pool.
The constructor asserts `num_threads >= 1`, so every constructed facade has
a non-empty pool; that class invariant is carried in the structure. -/
structure FNET_Transport where
  resolver : Nat
  threads : List FNET_TransportThread
  threads_nonempty : 0 < threads.length

theorem select_idx_lt (numThreads : Nat) (key : List Nat) (selfAddr now : Nat)
    (h : 0 < numThreads) : select_idx numThreads key selfAddr now < numThreads := by
  unfold select_idx
  exact Nat.mod_lt _ h

/-- `FNET_Transport::select_thread`: returns the worker at the selected index. -/
def FNET_Transport.select_thread (t : FNET_Transport) (key : List Nat)
    (selfAddr now : Nat) : FNET_TransportThread :=
  t.threads.get ⟨select_idx t.threads.length key selfAddr now,
    select_idx_lt t.threads.length key selfAddr now t.threads_nonempty⟩

/-- `strlen` on the modelled byte buffer: the bytes before the first NUL. -/
def cstr (s : List Nat) : List Nat := s.takeWhile (fun b => b ≠ 0)

/-- `FNET_Transport::Listen`: selects a worker by hashing
`(spec, strlen(spec))` and forwards the untouched arguments to it. -/
def FNET_Transport.Listen (t : FNET_Transport) (spec : List Nat)
    (streamer serverAdapter : Nat) (selfAddr now : Nat) : Option Nat :=
  (t.select_thread (cstr spec) selfAddr now).listen spec streamer serverAdapter

/-- `FNET_Transport::Connect`: selects a worker by hashing
`(spec, strlen(spec))` and forwards the untouched arguments to it. -/
def FNET_Transport.Connect (t : FNET_Transport) (spec : List Nat)
    (streamer adminHandler adminContext serverAdapter connContext : Nat)
    (selfAddr now : Nat) : Option Nat :=
  (t.select_thread (cstr spec) selfAddr now).connect
    spec streamer adminHandler adminContext serverAdapter connContext

/-- `FNET_Transport::GetNumIOComponents`: `uint32_t` accumulation over the
pool in index order. -/
def FNET_Transport.GetNumIOComponents (t : FNET_Transport) : Nat :=
  t.threads.foldl (fun result th => (result + th.GetNumIOComponents) % M32) 0

/-- The `Start` loop: `result &= thread->Start(pool)` over the whole pool —
no early exit — threading the updated workers through. -/
def startLoop (pool : Nat) : List FNET_TransportThread → Bool →
    Bool × List FNET_TransportThread
  | [], result => (result, [])
  | th :: rest, result =>
      let step := th.Start pool
      let tail := startLoop pool rest (result && step.1)
      (tail.1, step.2 :: tail.2)

theorem startLoop_length (pool : Nat) (l : List FNET_TransportThread) (r : Bool) :
    (startLoop pool l r).2.length = l.length := by
  induction l generalizing r with
  | nil => rfl
  | cons th rest ih => simp [startLoop, ih]

/-- `FNET_Transport::Start(pool)`: starts every worker, accumulating the
conjunction of the verdicts. -/
def FNET_Transport.Start (t : FNET_Transport) (pool : Nat) : Bool × FNET_Transport :=
  let res := startLoop pool t.threads true
  (res.1, ⟨t.resolver, res.2, by rw [startLoop_length]; exact t.threads_nonempty⟩)

/-! ## The I/O component router

An I/O component carries a non-owning back-reference to the worker that
created it (`Owner()`), here an opaque worker identity.  The facade's six
component operations dispatch through that back-reference alone: each is
modelled as returning the dispatch target together with the worker-level
call it makes, so that "which worker, which operation, which arguments" is
a value the theorems can speak about. -/

structure FNET_IOComponent where
  owner : Nat

def FNET_IOComponent.Owner (c : FNET_IOComponent) : Nat := c.owner

/-- A worker-level call on an I/O component, with its arguments. -/
inductive IOCCall where
  | add (comp : FNET_IOComponent) (needRef : Bool)
  | enableRead (comp : FNET_IOComponent) (needRef : Bool)
  | disableRead (comp : FNET_IOComponent) (needRef : Bool)
  | enableWrite (comp : FNET_IOComponent) (needRef : Bool)
  | disableWrite (comp : FNET_IOComponent) (needRef : Bool)
  | close (comp : FNET_IOComponent) (needRef : Bool)

def FNET_Transport.Add (_t : FNET_Transport) (comp : FNET_IOComponent)
    (needRef : Bool) : Nat × IOCCall :=
  (comp.Owner, IOCCall.add comp needRef)

def FNET_Transport.EnableRead (_t : FNET_Transport) (comp : FNET_IOComponent)
    (needRef : Bool) : Nat × IOCCall :=
  (comp.Owner, IOCCall.enableRead comp needRef)

def FNET_Transport.DisableRead (_t : FNET_Transport) (comp : FNET_IOComponent)
    (needRef : Bool) : Nat × IOCCall :=
  (comp.Owner, IOCCall.disableRead comp needRef)

def FNET_Transport.EnableWrite (_t : FNET_Transport) (comp : FNET_IOComponent)
    (needRef : Bool) : Nat × IOCCall :=
  (comp.Owner, IOCCall.enableWrite comp needRef)

def FNET_Transport.DisableWrite (_t : FNET_Transport) (comp : FNET_IOComponent)
    (needRef : Bool) : Nat × IOCCall :=
  (comp.Owner, IOCCall.disableWrite comp needRef)

def FNET_Transport.Close (_t : FNET_Transport) (comp : FNET_IOComponent)
    (needRef : Bool) : Nat × IOCCall :=
  (comp.Owner, IOCCall.close comp needRef)

/-! ## Construction and single-thread mode

`assert` is modelled as `Option`: `none` is a failed precondition check. -/

/-- The behaviour of a freshly constructed worker
(`new FNET_TransportThread(*this)`) is outside the translated fragment;
only its existence matters to the facade's constructor. -/
def newTransportThread : FNET_TransportThread :=
  { listen := fun _ _ _ => none
    connect := fun _ _ _ _ _ _ => none
    numIOComponents := 0
    start_ok := fun _ => true
    startCount := 0
    timeSampler := 0
    initEventLoop_ok := true
    eventLoopIteration_ok := true }

/-- The `FNET_Transport` constructor: `assert(num_threads >= 1)`, then
populate the pool with `num_threads` fresh workers. -/
def FNET_Transport.construct (resolver : Nat) (num_threads : Nat) :
    Option FNET_Transport :=
  if h : 1 ≤ num_threads then
    some ⟨resolver, List.replicate num_threads newTransportThread, by
      simpa using h⟩
  else
    none

/-- `FNET_Transport::GetTimeSampler`: `assert(_threads.size() == 1)`, then
delegate to the only worker. -/
def FNET_Transport.GetTimeSampler (t : FNET_Transport) : Option Nat :=
  if h : t.threads.length = 1 then
    some (t.threads.get ⟨0, by omega⟩).timeSampler
  else
    none

/-- `FNET_Transport::InitEventLoop`: `assert(_threads.size() == 1)`, then
delegate to the only worker. -/
def FNET_Transport.InitEventLoop (t : FNET_Transport) : Option Bool :=
  if h : t.threads.length = 1 then
    some (t.threads.get ⟨0, by omega⟩).initEventLoop_ok
  else
    none

/-- `FNET_Transport::EventLoopIteration`: `assert(_threads.size() == 1)`,
then delegate to the only worker. -/
def FNET_Transport.EventLoopIteration (t : FNET_Transport) : Option Bool :=
  if h : t.threads.length = 1 then
    some (t.threads.get ⟨0, by omega⟩).eventLoopIteration_ok
  else
    none

/-- `FNET_Transport::Main`: `assert(_threads.size() == 1)`, then run the
only worker's loop. -/
def FNET_Transport.Main (t : FNET_Transport) : Option Unit :=
  if t.threads.length = 1 then some () else none

/-! ## Teardown actions

The destructor, `ShutDown` and `WaitFinished` are modelled by the sequence
of blocking actions each performs, so that what the destructor does — and
does not — do is a value. -/

inductive TeardownAction where
  | resolverWaitPendingResolves
  | threadShutDown (idx : Nat) (waitFinished : Bool)
  | threadWaitFinished (idx : Nat)
deriving DecidableEq

/-- Is the action an operation on a worker thread (as opposed to the
resolver)? -/
def TeardownAction.isThreadAction : TeardownAction → Bool
  | TeardownAction.resolverWaitPendingResolves => false
  | TeardownAction.threadShutDown _ _ => true
  | TeardownAction.threadWaitFinished _ => true

/-- `FNET_Transport::~FNET_Transport`: the body is the single call
`_async_resolver->wait_for_pending_resolves()`. -/
def FNET_Transport.destructor (_t : FNET_Transport) : List TeardownAction :=
  [TeardownAction.resolverWaitPendingResolves]

/-- `FNET_Transport::ShutDown(waitFinished)`: signals every worker in index
order. -/
def FNET_Transport.ShutDown (t : FNET_Transport) (waitFinished : Bool) :
    List TeardownAction :=
  (List.range t.threads.length).map (fun i => TeardownAction.threadShutDown i waitFinished)

/-- `FNET_Transport::WaitFinished`: joins every worker in index order. -/
def FNET_Transport.WaitFinished (t : FNET_Transport) : List TeardownAction :=
  (List.range t.threads.length).map TeardownAction.threadWaitFinished

/-! ## Concrete fixtures used by the witnesses -/

/-- A worker with distinguishable concrete behaviour. -/
def exThread (k : Nat) : FNET_TransportThread :=
  { listen := fun s st ad => some (s.sum + st + ad + k)
    connect := fun s a b c d e => some (s.sum + a + b + c + d + e + k)
    numIOComponents := k
    start_ok := fun _ => true
    startCount := 0
    timeSampler := k
    initEventLoop_ok := true
    eventLoopIteration_ok := false }

/-- A single-worker facade. -/
def exTransport1 : FNET_Transport :=
  ⟨0, [exThread 5], by simp⟩

/-- A two-worker facade. -/
def exTransport2 : FNET_Transport :=
  ⟨0, [exThread 3, exThread 4], by simp⟩

/-! ## Helper lemmas -/

theorem getNumFold (l : List FNET_TransportThread) (r : Nat) (hr : r < M32) :
    l.foldl (fun result th => (result + th.GetNumIOComponents) % M32) r
      = (r + (l.map FNET_TransportThread.GetNumIOComponents).sum) % M32 := by
  induction l generalizing r with
  | nil => simpa using (Nat.mod_eq_of_lt hr).symm
  | cons th rest ih =>
      have hstep : (r + th.GetNumIOComponents) % M32 < M32 := Nat.mod_lt _ (by decide)
      calc (th :: rest).foldl (fun result th => (result + th.GetNumIOComponents) % M32) r
          = ((r + th.GetNumIOComponents) % M32
              + (rest.map FNET_TransportThread.GetNumIOComponents).sum) % M32 :=
            ih ((r + th.GetNumIOComponents) % M32) hstep
        _ = (r + ((th :: rest).map FNET_TransportThread.GetNumIOComponents).sum) % M32 := by
            show _ % 4294967296 = _ % 4294967296
            simp only [List.map_cons, List.sum_cons, M32]
            omega

theorem startLoop_fst (pool : Nat) (l : List FNET_TransportThread) (r : Bool) :
    (startLoop pool l r).1 = (r && l.all (fun th => th.start_ok pool)) := by
  induction l generalizing r with
  | nil => simp [startLoop]
  | cons th rest ih =>
      simp [startLoop, FNET_TransportThread.Start, ih, Bool.and_assoc]

theorem startLoop_counts (pool : Nat) (l : List FNET_TransportThread) (r : Bool) :
    (startLoop pool l r).2.map (fun th => th.startCount)
      = l.map (fun th => th.startCount + 1) := by
  induction l generalizing r with
  | nil => simp [startLoop]
  | cons th rest ih => simp [startLoop, FNET_TransportThread.Start, ih]

theorem cstr_append_nul (p tail : List Nat) (hp : ∀ x ∈ p, x ≠ 0) :
    cstr (p ++ 0 :: tail) = p := by
  induction p with
  | nil => simp [cstr]
  | cons x xs ih =>
      have hx : x ≠ 0 := hp x (by simp)
      have ihx := ih (fun y hy => hp y (by simp [hy]))
      simp only [cstr, List.cons_append, List.takeWhile_cons, decide_not] at ihx ⊢
      simp [hx, ihx]

/-! ## The claims -/

/-- C1: for every worker count N ≥ 1 and every shard key — any byte
sequence, including the sentinel key (null, 0), i.e. the empty key — and
any per-call salt, `select_thread` selects a worker index in [0, N); in
particular for N = 1 the index is always 0. -/
theorem select_idx_in_range (N : Nat) (key : List Nat) (selfAddr now : Nat)
    (h : 1 ≤ N) :
    select_idx N key selfAddr now < N
    ∧ (N = 1 → select_idx N key selfAddr now = 0) :=
  ⟨select_idx_lt N key selfAddr now h, fun h1 => by subst h1; simp [select_idx, Nat.mod_one]⟩

/-- Witness for C1: N = 2 with the sentinel (empty) key. -/
theorem select_idx_in_range_witness :
    1 ≤ 2 ∧ (select_idx 2 [] 0 0 < 2 ∧ (2 = 1 → select_idx 2 [] 0 0 = 0)) :=
  ⟨by decide, select_idx_in_range 2 [] 0 0 (by decide)⟩

/-- C2: `select_thread` computes its result by the two-stage algorithm: a
first 64-bit hash of the key bytes, then a second 64-bit hash over a
structure holding (a) the per-call identity value, (b) the call-time
timestamp, (c) the first hash; the worker index is the second hash modulo
N, and the facade returns the pool element at that index. -/
theorem select_thread_two_stage_hash (N : Nat) (key : List Nat)
    (selfAddr now : Nat) (t : FNET_Transport) :
    select_idx N key selfAddr now = specSelect N key selfAddr now
    ∧ t.select_thread key selfAddr now
        = t.threads.get ⟨select_idx t.threads.length key selfAddr now,
            select_idx_lt t.threads.length key selfAddr now t.threads_nonempty⟩ :=
  ⟨rfl, rfl⟩

/-- C3: the shard selector is not a pure function of the key bytes alone —
with N = 2 workers and the same key, two calls whose per-call salts differ
can select different workers. -/
theorem select_thread_salt_sensitive :
    ∃ (N : Nat) (key : List Nat) (self1 now1 self2 now2 : Nat),
      1 < N ∧ select_idx N key self1 now1 ≠ select_idx N key self2 now2 :=
  ⟨2, [116, 99, 112], 0, 0, 2, 0, by decide, by decide⟩

/-- C4: `Listen` and `Connect` compute the shard key from the spec bytes up
to (excluding) the NUL terminator, forward all of their arguments unchanged
to the selected worker, and return that worker's result unchanged — in
particular a null (`none`) worker result is returned as-is. -/
theorem listen_connect_forward_verbatim (t : FNET_Transport) (spec : List Nat)
    (streamer adminHandler adminContext serverAdapter connContext selfAddr now : Nat) :
    t.Listen spec streamer serverAdapter selfAddr now
      = (t.select_thread (cstr spec) selfAddr now).listen spec streamer serverAdapter
    ∧ t.Connect spec streamer adminHandler adminContext serverAdapter connContext selfAddr now
      = (t.select_thread (cstr spec) selfAddr now).connect spec streamer adminHandler
          adminContext serverAdapter connContext
    ∧ (t.Listen spec streamer serverAdapter selfAddr now).isNone
      = ((t.select_thread (cstr spec) selfAddr now).listen spec streamer serverAdapter).isNone
    ∧ (t.Connect spec streamer adminHandler adminContext serverAdapter connContext selfAddr now).isNone
      = ((t.select_thread (cstr spec) selfAddr now).connect spec streamer adminHandler
          adminContext serverAdapter connContext).isNone :=
  ⟨rfl, rfl, rfl, rfl⟩

/-- C5: each of the six I/O-component operations dispatches to exactly the
worker named by the component's `Owner()` back-reference, with the same
component and `needRef` arguments, and is independent of the facade it is
called on — the shard selector (whose inputs the operations do not even
take) is never consulted. -/
theorem ioc_router_via_owner (t u : FNET_Transport) (comp : FNET_IOComponent)
    (needRef : Bool) :
    (t.Add comp needRef = (comp.Owner, IOCCall.add comp needRef)
     ∧ t.EnableRead comp needRef = (comp.Owner, IOCCall.enableRead comp needRef)
     ∧ t.DisableRead comp needRef = (comp.Owner, IOCCall.disableRead comp needRef)
     ∧ t.EnableWrite comp needRef = (comp.Owner, IOCCall.enableWrite comp needRef)
     ∧ t.DisableWrite comp needRef = (comp.Owner, IOCCall.disableWrite comp needRef)
     ∧ t.Close comp needRef = (comp.Owner, IOCCall.close comp needRef))
    ∧ (t.Add comp needRef = u.Add comp needRef
     ∧ t.EnableRead comp needRef = u.EnableRead comp needRef
     ∧ t.DisableRead comp needRef = u.DisableRead comp needRef
     ∧ t.EnableWrite comp needRef = u.EnableWrite comp needRef
     ∧ t.DisableWrite comp needRef = u.DisableWrite comp needRef
     ∧ t.Close comp needRef = u.Close comp needRef) :=
  ⟨⟨rfl, rfl, rfl, rfl, rfl, rfl⟩, rfl, rfl, rfl, rfl, rfl, rfl⟩

/-- C6: `Start(pool)` invokes `Start` on every worker — each worker's
invocation count rises by one, even after an earlier worker reported
failure — and returns the conjunction of all per-worker verdicts. -/
theorem start_broadcasts_and_accumulates (t : FNET_Transport) (pool : Nat) :
    (t.Start pool).1 = t.threads.all (fun th => th.start_ok pool)
    ∧ (t.Start pool).2.threads.map (fun th => th.startCount)
        = t.threads.map (fun th => th.startCount + 1) := by
  constructor
  · show (startLoop pool t.threads true).1 = _
    rw [startLoop_fst]
    simp
  · show (startLoop pool t.threads true).2.map _ = _
    exact startLoop_counts pool t.threads true

/-- C7: constructing the facade with N < 1 workers fails the
`assert(num_threads >= 1)` precondition (and succeeds for N ≥ 1), and each
single-thread-mode operation asserts N = 1 on entry: it succeeds when the
pool has exactly one worker and fails the precondition check when N > 1. -/
theorem construct_and_single_thread_asserts (resolver num_threads : Nat)
    (t : FNET_Transport) :
    (num_threads < 1 → FNET_Transport.construct resolver num_threads = none)
    ∧ (1 ≤ num_threads → (FNET_Transport.construct resolver num_threads).isSome = true)
    ∧ (t.threads.length = 1 →
        t.GetTimeSampler.isSome = true ∧ t.InitEventLoop.isSome = true
        ∧ t.EventLoopIteration.isSome = true ∧ t.Main.isSome = true)
    ∧ (1 < t.threads.length →
        t.GetTimeSampler = none ∧ t.InitEventLoop = none
        ∧ t.EventLoopIteration = none ∧ t.Main = none) := by
  refine ⟨fun h => ?_, fun h => ?_, fun h => ?_, fun h => ?_⟩
  · have hn : ¬ 1 ≤ num_threads := by omega
    simp [FNET_Transport.construct, hn]
  · simp [FNET_Transport.construct, h]
  · simp [FNET_Transport.GetTimeSampler, FNET_Transport.InitEventLoop,
      FNET_Transport.EventLoopIteration, FNET_Transport.Main, h]
  · have hne : ¬ t.threads.length = 1 := by omega
    simp [FNET_Transport.GetTimeSampler, FNET_Transport.InitEventLoop,
      FNET_Transport.EventLoopIteration, FNET_Transport.Main, hne]

/-- Witness for C7: construction fails at N = 0 and succeeds at N = 2; the
single-thread assertions pass on a one-worker facade and fail on a
two-worker facade. -/
theorem construct_and_single_thread_asserts_witness :
    FNET_Transport.construct 0 0 = none
    ∧ (FNET_Transport.construct 0 2).isSome = true
    ∧ exTransport1.GetTimeSampler.isSome = true
    ∧ exTransport2.GetTimeSampler = none := by
  refine ⟨(construct_and_single_thread_asserts 0 0 exTransport1).1 (by decide),
    (construct_and_single_thread_asserts 0 2 exTransport1).2.1 (by decide),
    ((construct_and_single_thread_asserts 0 0 exTransport1).2.2.1 (by decide)).1,
    ((construct_and_single_thread_asserts 0 0 exTransport2).2.2.2 (by decide)).1⟩

/-- C8: `GetNumIOComponents` returns the sum of every worker's
`GetNumIOComponents`, visiting the pool once in index order (stated under
the no-`uint32_t`-overflow side condition the C++ accumulation needs). -/
theorem get_num_io_components_sums_pool (t : FNET_Transport)
    (h : (t.threads.map FNET_TransportThread.GetNumIOComponents).sum < M32) :
    t.GetNumIOComponents
      = (t.threads.map FNET_TransportThread.GetNumIOComponents).sum := by
  unfold FNET_Transport.GetNumIOComponents
  rw [getNumFold t.threads 0 (by decide)]
  simpa using Nat.mod_eq_of_lt (by simpa using h)

/-- Witness for C8 on the two-worker facade with counts 3 and 4. -/
theorem get_num_io_components_sums_pool_witness :
    (exTransport2.threads.map FNET_TransportThread.GetNumIOComponents).sum < M32
    ∧ exTransport2.GetNumIOComponents
        = (exTransport2.threads.map FNET_TransportThread.GetNumIOComponents).sum :=
  ⟨by decide, get_num_io_components_sums_pool exTransport2 (by decide)⟩

/-- C9: the destructor performs exactly one action — blocking on the
resolver's wait-for-pending-resolves — and performs no worker-thread
action (no `ShutDown`, no `WaitFinished`) on any worker. -/
theorem destructor_only_drains_resolver (t : FNET_Transport) :
    t.destructor = [TeardownAction.resolverWaitPendingResolves]
    ∧ t.destructor.countP TeardownAction.isThreadAction = 0 :=
  ⟨rfl, rfl⟩

/-- C10: the shard key of `Listen`/`Connect` is the prefix of the spec up
to (excluding) its first NUL byte (`strlen` semantics): two specs agreeing
up to an embedded NUL yield the same shard key, and selection hashes only
that prefix, while the full original spec is what is forwarded to the
chosen worker. -/
theorem shard_key_stops_at_first_nul (t : FNET_Transport) (p a b : List Nat)
    (hp : ∀ x ∈ p, x ≠ 0)
    (streamer adminHandler adminContext serverAdapter connContext selfAddr now : Nat) :
    cstr (p ++ 0 :: a) = cstr (p ++ 0 :: b)
    ∧ t.Listen (p ++ 0 :: a) streamer serverAdapter selfAddr now
        = (t.select_thread p selfAddr now).listen (p ++ 0 :: a) streamer serverAdapter
    ∧ t.Connect (p ++ 0 :: a) streamer adminHandler adminContext serverAdapter connContext selfAddr now
        = (t.select_thread p selfAddr now).connect (p ++ 0 :: a) streamer adminHandler
            adminContext serverAdapter connContext := by
  have ha := cstr_append_nul p a hp
  have hb := cstr_append_nul p b hp
  refine ⟨ha.trans hb.symm, ?_, ?_⟩
  · show (t.select_thread (cstr (p ++ 0 :: a)) selfAddr now).listen _ _ _ = _
    rw [ha]
  · show (t.select_thread (cstr (p ++ 0 :: a)) selfAddr now).connect _ _ _ _ _ _ = _
    rw [ha]

/-- Witness for C10: the specs `tcp\0A` and `tcp\0B` share the shard key
`tcp`, and the full spec reaches the worker. -/
theorem shard_key_stops_at_first_nul_witness :
    (∀ x ∈ [116, 99, 112], x ≠ (0 : Nat))
    ∧ (cstr ([116, 99, 112] ++ 0 :: [65]) = cstr ([116, 99, 112] ++ 0 :: [66])
       ∧ exTransport2.Listen ([116, 99, 112] ++ 0 :: [65]) 1 4 0 0
           = (exTransport2.select_thread [116, 99, 112] 0 0).listen
               ([116, 99, 112] ++ 0 :: [65]) 1 4
       ∧ exTransport2.Connect ([116, 99, 112] ++ 0 :: [65]) 1 2 3 4 5 0 0
           = (exTransport2.select_thread [116, 99, 112] 0 0).connect
               ([116, 99, 112] ++ 0 :: [65]) 1 2 3 4 5) :=
  ⟨by decide,
   shard_key_stops_at_first_nul exTransport2 [116, 99, 112] [65] [66] (by decide) 1 2 3 4 5 0 0⟩
